import Mathlib

/-!
Shallow embedding of the search/pagination state controller of the
Business-Finder single-page application (src/App.tsx, src/types.ts),
together with theorems settling the specification claims about it.

The two user actions `handleSearch` and `handleLoadMore` are async React
callbacks whose only suspension point is one awaited fetch; we embed each
as a pure function from the pre-call state and the fetch outcome to the
post-call state.  A thrown value is modelled as `Except.error (Option String)`:
`some m` is a thrown `Error` with message `m`, `none` is a thrown non-`Error`
value, matching the `e instanceof Error` test in the catch blocks.
-/

namespace BusinessFinder

/-- Business record from src/types.ts; `name` is the identity key. -/
structure Business where
  name : String
  address : String
  phone : Option String := none
  category : Option String := none
  deriving Repr, DecidableEq

/-- Citation source from src/types.ts; `uri` is the identity key. -/
structure Source where
  uri : String
  title : String
  deriving Repr, DecidableEq

/-- The parsed reply of `fetchBusinessesByPincode`. -/
structure FetchResult where
  businesses : List Business
  sources : List Source
  deriving Repr, DecidableEq

/-- Outcome of the awaited external call: success with a parsed result, or a
thrown value (`some m` = an `Error` carrying message `m`, `none` = a
non-`Error` thrown value). -/
abbrev FetchOutcome := Except (Option String) FetchResult

/-- The React component state of `App` (src/App.tsx lines 12-20). -/
structure AppState where
  pincode : String
  area : String
  businesses : List Business
  sources : List Source
  isLoading : Bool
  isMoreLoading : Bool
  error : Option String
  hasSearched : Bool
  hasMore : Bool
  deriving Repr, DecidableEq

/-- The message of the catch-all fallback in both catch blocks. -/
def unknownErrorMessage : String := "An unknown error occurred."

/-- The user-visible error string produced by a catch block: the `Error`
message when the thrown value is an `Error`, the generic fallback otherwise
(src/App.tsx lines 44-49 and 82-88). -/
def errorMessageOf (e : Option String) : String := e.getD unknownErrorMessage

/-- State after the synchronous prefix of `handleSearch` on an accepted
pincode, just before the awaited fetch (src/App.tsx lines 28-33). -/
def searchPre (s : AppState) : AppState :=
  { s with isLoading := true, error := none, businesses := [], sources := [],
           hasSearched := true, hasMore := false }

/-- The `handleSearch` callback (src/App.tsx lines 22-53).  Returns the new
state together with a flag recording whether the external capability
`fetchBusinessesByPincode` was invoked. -/
def handleSearch (s : AppState) (fetch : FetchOutcome) : AppState × Bool :=
  if s.pincode.length ≠ 6 then
    ({ s with error := some "Please enter a valid 6-digit pincode." }, false)
  else
    let s1 := searchPre s
    match fetch with
    | Except.ok r =>
        ({ s1 with businesses := r.businesses, sources := r.sources,
                   hasMore := if r.businesses.length > 0 ∧ r.businesses.length = 30
                              then true else false,
                   isLoading := false }, true)
    | Except.error e =>
        ({ s1 with error := some (errorMessageOf e), isLoading := false }, true)

/-- State after the synchronous prefix of `handleLoadMore`, just before the
awaited fetch (src/App.tsx lines 56-57). -/
def loadMorePre (s : AppState) : AppState :=
  { s with isMoreLoading := true, error := none }

/-- One `Map.set` step of the JavaScript `new Map(allSources.map(s => [s.uri, s]))`
construction: a duplicate key overwrites the stored value in place, keeping
the first-insertion position; a fresh key is appended. -/
def mapInsert (acc : List Source) (s : Source) : List Source :=
  if acc.any (fun t => t.uri == s.uri) then
    acc.map (fun t => if t.uri == s.uri then s else t)
  else acc ++ [s]

/-- The `Array.from(new Map(l.map(s => [s.uri, s])).values())` dedup of
src/App.tsx line 74: keys in first-occurrence order, each holding the value
of its last occurrence. -/
def jsMapDedup (l : List Source) : List Source := l.foldl mapInsert []

/-- The `handleLoadMore` callback (src/App.tsx lines 55-92). -/
def handleLoadMore (s : AppState) (fetch : FetchOutcome) : AppState :=
  let s1 := loadMorePre s
  match fetch with
  | Except.ok r =>
      let uniqueNewResults := r.businesses.filter
        (fun nb => !(s.businesses.any (fun eb => eb.name == nb.name)))
      let s2 := if uniqueNewResults.length > 0
                then { s1 with businesses := s1.businesses ++ uniqueNewResults }
                else s1
      let s3 := if r.sources.length > 0
                then { s2 with sources := jsMapDedup (s2.sources ++ r.sources) }
                else s2
      let s4 := if r.businesses.length < 30 then { s3 with hasMore := false } else s3
      { s4 with isMoreLoading := false }
  | Except.error e =>
      { s1 with error := some (errorMessageOf e), hasMore := false,
                isMoreLoading := false }

/-- Keys of a list in first-occurrence order, dropping later duplicates: the
key order produced by a JavaScript `Map` built by successive insertions. -/
def firstOccurrences : List String → List String
  | [] => []
  | u :: l => u :: firstOccurrences (l.filter (fun v => !(v == u)))
termination_by l => l.length
decreasing_by
  simp only [List.length_cons]
  exact Nat.lt_succ_of_le (List.length_filter_le _ _)

/-- Existing state of the source-merge example: one source `{uri:"x",title:"old"}`. -/
def c1State : AppState :=
  ⟨"110001", "", [], [⟨"x", "old"⟩], false, false, none, true, true⟩

/-- Load-more reply of the source-merge example: sources
`[{uri:"x",title:"new"},{uri:"y",title:"y"}]`. -/
def c1Fetch : FetchResult := ⟨[], [⟨"x", "new"⟩, ⟨"y", "y"⟩]⟩

/-- A state whose pincode has length 3, i.e. an invalid pincode. -/
def c2State : AppState := ⟨"123", "", [], [], false, false, none, false, false⟩

/-- A list of exactly 30 businesses, all named "A". -/
def thirtyBusinesses : List Business :=
  List.replicate 30 ⟨"A", "addr", none, none⟩

/-- A fresh valid-pincode state with no results yet. -/
def c4State : AppState := ⟨"110001", "", [], [], false, false, none, false, false⟩

/-- A fresh valid-pincode state used for the duplicate-name scenarios. -/
def c5State : AppState := ⟨"110001", "", [], [], false, false, none, false, false⟩

/-- A fetch reply containing two businesses with the same name "A". -/
def c5Fetch : FetchResult :=
  ⟨[⟨"A", "a1", none, none⟩, ⟨"A", "a2", none, none⟩], []⟩

/-- A fetch reply with duplicate-free business names and source uris. -/
def c5GoodFetch : FetchResult :=
  ⟨[⟨"A", "a", none, none⟩, ⟨"B", "b", none, none⟩], [⟨"x", "t"⟩]⟩

/-- A state holding one business "A" with `hasMore = true`. -/
def c6State : AppState :=
  ⟨"110001", "", [⟨"A", "addr", none, none⟩], [], false, false, none, true, true⟩

/-- A load-more reply of 30 businesses that are all duplicates of "A". -/
def c6Fetch : FetchResult := ⟨thirtyBusinesses, []⟩

/-- A state with results and a previously recorded error message "boom". -/
def c8State : AppState :=
  ⟨"110001", "", [⟨"A", "addr", none, none⟩], [⟨"x", "t"⟩], false, false,
   some "boom", true, true⟩

/-- A valid-pincode state with stale results, a stale error and `hasMore = true`. -/
def c9State : AppState :=
  ⟨"560038", "", [⟨"A", "addr", none, none⟩], [⟨"x", "t"⟩], false, false,
   some "old", false, true⟩

/-! ## Helper lemmas

Projections of `handleLoadMore` on the success path, and the
characterisation of the JavaScript-`Map` source dedup. -/

lemma loadMore_businesses_eq (s : AppState) (r : FetchResult) :
    (handleLoadMore s (Except.ok r)).businesses =
      s.businesses ++ r.businesses.filter
        (fun nb => !(s.businesses.any (fun eb => eb.name == nb.name))) := by
  simp only [handleLoadMore, loadMorePre]
  split
  · split <;> split <;> simp_all
  · split <;> split <;> simp_all [List.length_eq_zero]

lemma loadMore_sources_eq (s : AppState) (r : FetchResult) :
    (handleLoadMore s (Except.ok r)).sources =
      if r.sources.length > 0 then jsMapDedup (s.sources ++ r.sources)
      else s.sources := by
  simp only [handleLoadMore, loadMorePre]
  split <;> split <;> split <;> simp_all

lemma loadMore_hasMore_eq (s : AppState) (r : FetchResult) :
    (handleLoadMore s (Except.ok r)).hasMore =
      if r.businesses.length < 30 then false else s.hasMore := by
  simp only [handleLoadMore, loadMorePre]
  split <;> split <;> split <;> simp_all

lemma mem_of_mem_firstOccurrences : ∀ {l : List String} {u : String},
    u ∈ firstOccurrences l → u ∈ l
  | [], _, h => by simp [firstOccurrences] at h
  | v :: l, u, h => by
    rw [firstOccurrences] at h
    rcases List.mem_cons.mp h with h | h
    · exact h ▸ List.mem_cons_self _ _
    · exact List.mem_cons_of_mem _ (List.mem_of_mem_filter (mem_of_mem_firstOccurrences h))
termination_by l => l.length
decreasing_by
  simp only [List.length_cons]
  exact Nat.lt_succ_of_le (List.length_filter_le _ _)

lemma firstOccurrences_nodup : ∀ l : List String, (firstOccurrences l).Nodup
  | [] => by simp [firstOccurrences]
  | v :: l => by
    rw [firstOccurrences]
    refine List.nodup_cons.mpr ⟨fun hmem => ?_, firstOccurrences_nodup _⟩
    have := List.of_mem_filter (mem_of_mem_firstOccurrences hmem)
    simp at this
termination_by l => l.length
decreasing_by
  simp only [List.length_cons]
  exact Nat.lt_succ_of_le (List.length_filter_le _ _)

lemma mapInsert_uri_dup (acc : List Source) (x : Source)
    (h : acc.any (fun t => t.uri == x.uri) = true) :
    (mapInsert acc x).map Source.uri = acc.map Source.uri := by
  simp only [mapInsert, h, if_true]
  rw [List.map_map]
  apply List.map_congr_left
  intro t _
  by_cases ht : t.uri = x.uri
  · simp [ht]
  · simp [ht]

lemma mapInsert_uri_fresh (acc : List Source) (x : Source)
    (h : ¬ acc.any (fun t => t.uri == x.uri) = true) :
    (mapInsert acc x).map Source.uri = acc.map Source.uri ++ [x.uri] := by
  simp only [mapInsert, h, if_false]
  simp

lemma foldl_mapInsert_uri : ∀ (l : List Source) (acc : List Source),
    (l.foldl mapInsert acc).map Source.uri =
      acc.map Source.uri ++
        firstOccurrences ((l.map Source.uri).filter
          (fun u => decide (u ∉ acc.map Source.uri)))
  | [], acc => by simp [firstOccurrences]
  | x :: l, acc => by
    by_cases hx : acc.any (fun t => t.uri == x.uri) = true
    · have hmem : x.uri ∈ acc.map Source.uri := by
        rw [List.any_eq_true] at hx
        obtain ⟨t, ht, he⟩ := hx
        exact List.mem_map.mpr ⟨t, ht, beq_iff_eq.mp he⟩
      rw [List.foldl_cons, foldl_mapInsert_uri l (mapInsert acc x),
          mapInsert_uri_dup acc x hx]
      congr 2
      rw [List.map_cons, List.filter_cons_of_neg]
      simp [hmem]
    · have hmem : x.uri ∉ acc.map Source.uri := by
        intro hm
        apply hx
        rw [List.any_eq_true]
        obtain ⟨t, ht, he⟩ := List.mem_map.mp hm
        exact ⟨t, ht, beq_iff_eq.mpr he⟩
      rw [List.foldl_cons, foldl_mapInsert_uri l (mapInsert acc x),
          mapInsert_uri_fresh acc x hx]
      have hfilter : (l.map Source.uri).filter
            (fun u => decide (u ∉ acc.map Source.uri ++ [x.uri]))
          = ((l.map Source.uri).filter
              (fun u => decide (u ∉ acc.map Source.uri))).filter
              (fun v => !(v == x.uri)) := by
        rw [List.filter_filter]
        apply List.filter_congr
        intro u _
        by_cases h1 : u ∈ acc.map Source.uri <;> by_cases h2 : u = x.uri <;>
          simp [h1, h2]
      rw [hfilter, List.map_cons, List.filter_cons_of_pos (by simp [hmem]),
          firstOccurrences]
      simp [List.append_assoc]

lemma jsMapDedup_uri (l : List Source) :
    (jsMapDedup l).map Source.uri = firstOccurrences (l.map Source.uri) := by
  have h := foldl_mapInsert_uri l []
  simpa [jsMapDedup] using h

lemma jsMapDedup_uri_nodup (l : List Source) :
    ((jsMapDedup l).map Source.uri).Nodup := by
  rw [jsMapDedup_uri]
  exact firstOccurrences_nodup _

lemma mem_of_mem_mapInsert {acc : List Source} {x t : Source}
    (h : t ∈ mapInsert acc x) : t ∈ acc ∨ t = x := by
  unfold mapInsert at h
  split at h
  · obtain ⟨u, hu, he⟩ := List.mem_map.mp h
    by_cases hc : u.uri = x.uri
    · right; simp [hc] at he; exact he.symm
    · left; simp [hc] at he; exact he ▸ hu
  · rcases List.mem_append.mp h with h | h
    · exact Or.inl h
    · right; simpa using h

lemma mem_of_mem_foldl_mapInsert : ∀ {l acc : List Source} {t : Source},
    t ∈ l.foldl mapInsert acc → t ∈ acc ∨ t ∈ l
  | [], _, _, h => Or.inl h
  | x :: l, acc, t, h => by
    rw [List.foldl_cons] at h
    rcases mem_of_mem_foldl_mapInsert h with h | h
    · rcases mem_of_mem_mapInsert h with h | h
      · exact Or.inl h
      · exact Or.inr (h ▸ List.mem_cons_self _ _)
    · exact Or.inr (List.mem_cons_of_mem _ h)

lemma mem_of_mem_jsMapDedup {l : List Source} {t : Source}
    (h : t ∈ jsMapDedup l) : t ∈ l := by
  rcases mem_of_mem_foldl_mapInsert h with h | h
  · simp at h
  · exact h

lemma search_ok_hasMore (s : AppState) (r : FetchResult)
    (h : s.pincode.length = 6) :
    (handleSearch s (Except.ok r)).1.hasMore = (r.businesses.length == 30) := by
  simp only [handleSearch, h, ne_eq, not_true_eq_false, if_false, searchPre]
  rcases eq_or_ne r.businesses.length 30 with h30 | h30 <;> simp [h30]

/-! ## Claim theorems -/

/-- Claim C1, counterexample: merging existing sources `[{uri:"x",title:"old"}]`
with new sources `[{uri:"x",title:"new"},{uri:"y",title:"y"}]` in
`handleLoadMore` does NOT yield `[{uri:"x",title:"old"},{uri:"y",title:"y"}]`:
the JavaScript `Map` keeps the last value stored under a key, so the
first-seen title does not win. -/
theorem sources_merge_first_title_refuted :
    (handleLoadMore c1State (Except.ok c1Fetch)).sources ≠
      [⟨"x", "old"⟩, ⟨"y", "y"⟩] := by decide

/-- Claim C1, amended: the source merge of `handleLoadMore` dedups by uri
keeping first-occurrence order (the uri list of the result is exactly the
first occurrences of the concatenated uri list, and every merged entry is
one of the concatenated entries), but the kept entry's title is the
last-seen one: the concrete merge yields
`[{uri:"x",title:"new"},{uri:"y",title:"y"}]`. -/
theorem sources_merge_last_title_firstOccurrence_order :
    (handleLoadMore c1State (Except.ok c1Fetch)).sources =
        [⟨"x", "new"⟩, ⟨"y", "y"⟩] ∧
    ∀ (s : AppState) (r : FetchResult), r.sources ≠ [] →
      ((handleLoadMore s (Except.ok r)).sources.map Source.uri =
         firstOccurrences ((s.sources ++ r.sources).map Source.uri)) ∧
      ∀ x ∈ (handleLoadMore s (Except.ok r)).sources, x ∈ s.sources ++ r.sources := by
  refine ⟨by decide, ?_⟩
  intro s r hr
  have hlen : r.sources.length > 0 := List.length_pos.mpr hr
  rw [loadMore_sources_eq, if_pos hlen]
  exact ⟨jsMapDedup_uri _, fun x hx => mem_of_mem_jsMapDedup hx⟩

/-- Claim C1, witness: the amended merge law applied to the concrete example. -/
theorem sources_merge_last_title_firstOccurrence_order_witness :
    (handleLoadMore c1State (Except.ok c1Fetch)).sources.map Source.uri =
      firstOccurrences ((c1State.sources ++ c1Fetch.sources).map Source.uri) :=
  (sources_merge_last_title_firstOccurrence_order.2 c1State c1Fetch (by decide)).1

/-- Claim C2: for every state whose pincode length is not 6, `handleSearch`
does not invoke the external capability (the invocation flag is `false`) and
its only state change is setting the error to the validation message. -/
theorem search_rejects_invalid_pincode (s : AppState) (fetch : FetchOutcome)
    (h : s.pincode.length ≠ 6) :
    handleSearch s fetch =
      ({ s with error := some "Please enter a valid 6-digit pincode." }, false) := by
  simp [handleSearch, h]

/-- Claim C2, witness: the rejection law applied to a 3-character pincode. -/
theorem search_rejects_invalid_pincode_witness :
    handleSearch c2State (Except.ok ⟨[], []⟩) =
      ({ c2State with error := some "Please enter a valid 6-digit pincode." },
       false) :=
  search_rejects_invalid_pincode c2State _ (by decide)

/-- Claim C3: a successful load more appends to the end of the current
businesses exactly those returned businesses whose name equals no existing
business's name, preserving their returned order. -/
theorem loadMore_dedup_append (s : AppState) (r : FetchResult) :
    (handleLoadMore s (Except.ok r)).businesses =
      s.businesses ++ r.businesses.filter
        (fun nb => decide (∀ eb ∈ s.businesses, eb.name ≠ nb.name)) := by
  rw [loadMore_businesses_eq]
  congr 1
  apply List.filter_congr
  intro nb _
  rw [Bool.eq_iff_iff]
  simp [List.any_eq_true]

/-- Claim C4: after a successful search on a valid pincode, `hasMore` equals
whether the returned business count is exactly 30. -/
theorem search_hasMore_eq_thirty (s : AppState) (r : FetchResult)
    (h : s.pincode.length = 6) :
    (handleSearch s (Except.ok r)).1.hasMore = (r.businesses.length == 30) :=
  search_ok_hasMore s r h

/-- Claim C4, witness: a search returning exactly 30 businesses. -/
theorem search_hasMore_eq_thirty_witness :
    (handleSearch c4State (Except.ok ⟨thirtyBusinesses, []⟩)).1.hasMore =
      ((⟨thirtyBusinesses, []⟩ : FetchResult).businesses.length == 30) :=
  search_hasMore_eq_thirty c4State _ (by decide)

/-- Claim C5, counterexample: a fresh search stores the returned list
verbatim, so when the external capability returns two businesses both named
"A" the post-search businesses list has duplicate names. -/
theorem search_no_dup_refuted :
    ¬ (((handleSearch c5State (Except.ok c5Fetch)).1.businesses.map
          Business.name).Nodup) := by decide

/-- Claim C5, amended: the no-duplicates invariant holds conditionally.
After a successful search on a valid pincode it holds provided the returned
business names and source uris are themselves duplicate-free; after a
successful load more it holds provided the pre-state satisfied it and the
returned business names are duplicate-free (the source merge dedups
unconditionally whenever new sources arrive). -/
theorem dedup_invariant_amended :
    (∀ (s : AppState) (r : FetchResult), s.pincode.length = 6 →
       (r.businesses.map Business.name).Nodup →
       (r.sources.map Source.uri).Nodup →
       ((handleSearch s (Except.ok r)).1.businesses.map Business.name).Nodup ∧
       ((handleSearch s (Except.ok r)).1.sources.map Source.uri).Nodup) ∧
    (∀ (s : AppState) (r : FetchResult),
       (s.businesses.map Business.name).Nodup →
       (s.sources.map Source.uri).Nodup →
       (r.businesses.map Business.name).Nodup →
       ((handleLoadMore s (Except.ok r)).businesses.map Business.name).Nodup ∧
       ((handleLoadMore s (Except.ok r)).sources.map Source.uri).Nodup) := by
  constructor
  · intro s r h hb hs
    simp only [handleSearch, h, ne_eq, not_true_eq_false, if_false, searchPre]
    exact ⟨hb, hs⟩
  · intro s r hsb hss hrb
    constructor
    · rw [loadMore_businesses_eq, List.map_append, List.nodup_append]
      refine ⟨hsb, hrb.sublist (List.Sublist.map _ (List.filter_sublist _)), ?_⟩
      intro a ha hb
      obtain ⟨nb, hnb, hname⟩ := List.mem_map.mp hb
      obtain ⟨eb, heb, hebname⟩ := List.mem_map.mp ha
      have hcond := (List.mem_filter.mp hnb).2
      rw [Bool.not_eq_true', List.any_eq_false] at hcond
      have hne : eb.name = nb.name := by rw [hebname, hname]
      exact hcond eb heb (by simp [hne])
    · rw [loadMore_sources_eq]
      split
      · exact jsMapDedup_uri_nodup _
      · exact hss

/-- Claim C5, witness: the conditional invariant applied to a fresh search
whose reply is duplicate-free. -/
theorem dedup_invariant_amended_witness :
    ((handleSearch c5State (Except.ok c5GoodFetch)).1.businesses.map
        Business.name).Nodup ∧
    ((handleSearch c5State (Except.ok c5GoodFetch)).1.sources.map
        Source.uri).Nodup :=
  dedup_invariant_amended.1 c5State c5GoodFetch (by decide) (by decide) (by decide)

/-- Claim C6, counterexample: a load more returning 30 businesses all of
which are filtered out as duplicates (zero new businesses) leaves `hasMore`
true, so `hasMore` does not track the count of NEW businesses. -/
theorem loadMore_thirty_duplicates_keeps_hasMore :
    (handleLoadMore c6State (Except.ok c6Fetch)).hasMore = true ∧
    (c6Fetch.businesses.filter
        (fun nb => !(c6State.businesses.any
          (fun eb => eb.name == nb.name)))).length = 0 :=
  ⟨by decide, by decide⟩

/-- Claim C6, amended: `hasMore` tracks raw returned counts, not new-business
counts: a successful search on a valid pincode sets it to (returned count ==
30); a successful load more clears it exactly when the raw pre-filter count
is below 30 and otherwise preserves it (even when every returned business
was a duplicate); a failed load more clears it. -/
theorem hasMore_raw_count_semantics :
    (∀ (s : AppState) (r : FetchResult), s.pincode.length = 6 →
       (handleSearch s (Except.ok r)).1.hasMore = (r.businesses.length == 30)) ∧
    (∀ (s : AppState) (r : FetchResult),
       (handleLoadMore s (Except.ok r)).hasMore =
         if r.businesses.length < 30 then false else s.hasMore) ∧
    (∀ (s : AppState) (e : Option String),
       (handleLoadMore s (Except.error e)).hasMore = false) := by
  refine ⟨search_ok_hasMore, loadMore_hasMore_eq, ?_⟩
  intro s e
  simp [handleLoadMore, loadMorePre]

/-- Claim C6, witness: the amended search clause applied to an empty reply. -/
theorem hasMore_raw_count_semantics_witness :
    (handleSearch c4State (Except.ok ⟨[], []⟩)).1.hasMore =
      ((⟨[], []⟩ : FetchResult).businesses.length == 30) :=
  hasMore_raw_count_semantics.1 c4State ⟨[], []⟩ (by decide)

/-- Claim C7: when load more fails, the existing businesses and sources are
unchanged, `hasMore` is forced to false, and the recorded error is the
thrown `Error` message when present, else the generic fallback. -/
theorem loadMore_failure_effects (s : AppState) (e : Option String) :
    (handleLoadMore s (Except.error e)).businesses = s.businesses ∧
    (handleLoadMore s (Except.error e)).sources = s.sources ∧
    (handleLoadMore s (Except.error e)).hasMore = false ∧
    (handleLoadMore s (Except.error e)).error =
      some (e.getD "An unknown error occurred.") := by
  simp [handleLoadMore, loadMorePre, errorMessageOf, unknownErrorMessage]

/-- Claim C8, counterexample: entering load more clears a previously
recorded error: the pre-request state of `handleLoadMore` maps an error of
`some "boom"` to `none`, refuting "does not clear a previously recorded
error". -/
theorem loadMore_entry_keeps_error_refuted :
    c8State.error = some "boom" ∧ (loadMorePre c8State).error = none :=
  ⟨rfl, rfl⟩

/-- Claim C8, amended: invoking load more sets the load-more pending flag
and clears the recorded error before issuing the request, while leaving the
existing businesses and sources unchanged. -/
theorem loadMore_entry_frame_amended :
    ∀ s : AppState, (loadMorePre s).isMoreLoading = true ∧
      (loadMorePre s).businesses = s.businesses ∧
      (loadMorePre s).sources = s.sources ∧
      (loadMorePre s).error = none :=
  fun _ => ⟨rfl, rfl, rfl, rfl⟩

/-- Claim C9: an accepted fresh search (pincode of length 6) resets
businesses, sources and error and sets `hasSearched := true`,
`hasMore := false` before the fetch; hence on failure businesses and sources
are empty and the message is the `Error` message when present, else the
generic fallback. -/
theorem search_resets_state (s : AppState) (h : s.pincode.length = 6) :
    ((searchPre s).businesses = [] ∧ (searchPre s).sources = [] ∧
     (searchPre s).error = none ∧ (searchPre s).hasSearched = true ∧
     (searchPre s).hasMore = false) ∧
    ∀ e : Option String,
      (handleSearch s (Except.error e)).1.businesses = [] ∧
      (handleSearch s (Except.error e)).1.sources = [] ∧
      (handleSearch s (Except.error e)).1.error =
        some (e.getD "An unknown error occurred.") := by
  refine ⟨⟨rfl, rfl, rfl, rfl, rfl⟩, ?_⟩
  intro e
  simp [handleSearch, h, searchPre, errorMessageOf, unknownErrorMessage]

/-- Claim C9, witness: a search over stale state failing with a message-less
thrown value. -/
theorem search_resets_state_witness :
    (handleSearch c9State (Except.error none)).1.businesses = [] ∧
    (handleSearch c9State (Except.error none)).1.sources = [] ∧
    (handleSearch c9State (Except.error none)).1.error =
      some ((none : Option String).getD "An unknown error occurred.") :=
  (search_resets_state c9State (by decide)).2 none

/-- Claim C10: load more never sets `hasMore` to true (on every path it
preserves or clears it), and a search can move `hasMore` from false to true
only when the fetch succeeded with exactly 30 businesses. -/
theorem loadMore_never_enables_hasMore :
    (∀ (s : AppState) (fetch : FetchOutcome),
       (handleLoadMore s fetch).hasMore = true → s.hasMore = true) ∧
    (∀ (s : AppState) (fetch : FetchOutcome), s.hasMore = false →
       (handleSearch s fetch).1.hasMore = true →
       ∃ r, fetch = Except.ok r ∧ r.businesses.length = 30) := by
  constructor
  · intro s fetch h
    cases fetch with
    | ok r =>
        rw [loadMore_hasMore_eq] at h
        split at h
        · exact absurd h (by simp)
        · exact h
    | error e =>
        simp [handleLoadMore, loadMorePre] at h
  · intro s fetch hfalse h
    by_cases hp : s.pincode.length = 6
    · cases fetch with
      | ok r =>
          refine ⟨r, rfl, ?_⟩
          rw [search_ok_hasMore s r hp] at h
          exact beq_iff_eq.mp h
      | error e =>
          simp [handleSearch, hp, searchPre] at h
    · simp only [handleSearch, hp, ne_eq, not_false_eq_true, if_true] at h
      exact absurd (hfalse ▸ h) (by simp)

/-- Claim C10, witness: a load more preserving `hasMore = true` certifies
that `hasMore` was already true before it ran. -/
theorem loadMore_never_enables_hasMore_witness :
    c6State.hasMore = true :=
  loadMore_never_enables_hasMore.1 c6State (Except.ok c6Fetch) (by decide)

end BusinessFinder
